import Mathlib

/-!
Shallow embedding of the 7tv-on-demand emote service
(src/services/emoteService.ts, src/types/emote.ts, src/config.ts).

Modelling conventions:
- JavaScript strings are Lean Strings; the JS operations trim, toLowerCase and
  toUpperCase are embedded as jsTrim, jsToLower and jsToUpper over the
  underlying character list (ASCII case mapping, as in core Char.toLower).
- The network is an oracle parameter: a function from a set id (or URL) to a
  FetchResult.  FetchResult.fail stands for a network error, timeout or
  rejected promise; axios itself never partially succeeds in this code.
- Zod validation is embedded structurally: a raw record has Option fields for
  every key that may be absent in the JSON, and the parse functions fail
  (return none) exactly where the zod schemas reject.  zod z.array is
  all-or-nothing: one bad element rejects the whole array, which
  parseSevenTVEmoteList reproduces.
- The NodeCache instance (emoteCache, stdTTL from config) is embedded as a
  list of entries carrying their expiry instant; cacheGet at time now returns
  an unexpired entry, cacheSet prepends (first match wins on lookup, so a
  later set shadows an earlier one exactly like the key overwrite in
  NodeCache).  Time is an explicit Nat parameter.
- The module state (the mutable allEmotes array plus the cache) is an
  explicit RegistryState threaded through fetchEmotes / findEmote /
  refreshEmotes.
-/

/-- Embedding of the JavaScript String.prototype.toLowerCase restricted to the
basic latin range (the range core Char.toLower handles). -/
def jsToLower (s : String) : String :=
  ⟨s.data.map Char.toLower⟩

/-- Embedding of the JavaScript String.prototype.toUpperCase restricted to the
basic latin range. -/
def jsToUpper (s : String) : String :=
  ⟨s.data.map Char.toUpper⟩

/-- Embedding of the JavaScript String.prototype.trim: drop leading and
trailing whitespace. -/
def jsTrim (s : String) : String :=
  ⟨((s.data.dropWhile Char.isWhitespace).reverse.dropWhile Char.isWhitespace).reverse⟩

/-- Internal emote shape, from EmoteSchema in src/types/emote.ts.  All seven
fields are always present after a successful EmoteSchema.parse; the schema
itself puts no constraint on the strings beyond their type (in particular
z.string() accepts the empty string). -/
structure Emote where
  id : String
  name : String
  owner : String
  visibility : Option Int
  mime : Option String
  tags : List String
  animated : Bool
  deriving DecidableEq, Repr

/-- Raw owner object of a 7TV record: the owner key itself is optional in
SevenTVEmoteSchema, but when present its username key must be a string. -/
structure RawOwner where
  username : Option String
  deriving DecidableEq, Repr

/-- Raw data object of a 7TV record: both keys are optional, but the data
object itself is required by SevenTVEmoteSchema. -/
structure RawEmoteData where
  mime : Option String
  animated : Option Bool
  deriving DecidableEq, Repr

/-- Raw 7TV emote record as it may arrive in the JSON body: every key is an
Option so that the zod validation outcome (SevenTVEmoteSchema) can be stated
per key. -/
structure RawSevenTVEmote where
  id : Option String
  name : Option String
  owner : Option RawOwner
  visibility : Option Int
  data : Option RawEmoteData
  tags : Option (List String)
  deriving DecidableEq, Repr

/-- Raw response body of the emote-set endpoint: SevenTVEmoteSetSchema
requires an emotes array; none models a body without (or with a non-array)
emotes key, i.e. a response-shape mismatch. -/
structure RawEmoteSetBody where
  emotes : Option (List RawSevenTVEmote)
  deriving DecidableEq, Repr

/-- Validated owner object (output of SevenTVEmoteSchema on the owner key). -/
structure STVOwner where
  username : String
  deriving DecidableEq, Repr

/-- Validated data object (output of SevenTVEmoteSchema on the data key). -/
structure STVEmoteData where
  mime : Option String
  animated : Option Bool
  deriving DecidableEq, Repr

/-- Validated 7TV emote record, the SevenTVEmote type inferred from
SevenTVEmoteSchema. -/
structure SevenTVEmote where
  id : String
  name : String
  owner : Option STVOwner
  visibility : Option Int
  data : STVEmoteData
  tags : Option (List String)
  deriving DecidableEq, Repr

/-- Validation of the optional owner object: absent is fine (none becomes
some none), present without a username string is rejected. -/
def parseOwner : Option RawOwner → Option (Option STVOwner)
  | none => some none
  | some o =>
    match o.username with
    | some u => some (some ⟨u⟩)
    | none => none

/-- Embedding of SevenTVEmoteSchema.parse on a single raw record: id and name
must be present strings and the data object must be present; the optional
owner object, when present, must carry a username.  No emptiness check is
made on any string. -/
def parseSevenTVEmote (r : RawSevenTVEmote) : Option SevenTVEmote :=
  match r.id, r.name, r.data, parseOwner r.owner with
  | some i, some n, some d, some ow =>
    some { id := i, name := n, owner := ow, visibility := r.visibility,
           data := { mime := d.mime, animated := d.animated }, tags := r.tags }
  | _, _, _, _ => none

/-- Embedding of z.array(SevenTVEmoteSchema): element-wise validation that is
all-or-nothing, exactly as zod rejects the whole array when any element is
invalid. -/
def parseSevenTVEmoteList : List RawSevenTVEmote → Option (List SevenTVEmote)
  | [] => some []
  | r :: rs =>
    match parseSevenTVEmote r, parseSevenTVEmoteList rs with
    | some e, some es => some (e :: es)
    | _, _ => none

/-- Embedding of SevenTVEmoteSetSchema.safeParse on a response body. -/
def parseSevenTVEmoteSet (b : RawEmoteSetBody) : Option (List SevenTVEmote) :=
  match b.emotes with
  | none => none
  | some rs => parseSevenTVEmoteList rs

/-- Outcome of one network request: ok carries the (already JSON-decoded)
value, fail stands for a thrown error (network failure, timeout, non-2xx
status). -/
inductive FetchResult (α : Type) where
  | ok (value : α)
  | fail
  deriving DecidableEq, Repr

/-- Embedding of the JavaScript truthiness fallback x || d on an optional
string: a missing value and the empty string both fall back to d. -/
def jsOrString (x : Option String) (d : String) : String :=
  match x with
  | some s => if s = "" then d else s
  | none => d

/-- Embedding of mapSevenTVEmote (emoteService.ts, lines 57 to 67).  The
EmoteSchema.parse call there only re-checks types, which the SevenTVEmote
input already guarantees, so the mapping is total.  The owner fallback uses
the JS || operator, so an empty username also becomes the sentinel. -/
def mapSevenTVEmote (e : SevenTVEmote) : Emote :=
  { id := e.id
    name := e.name
    owner := jsOrString (e.owner.map STVOwner.username) "Desconhecido"
    visibility := e.visibility
    mime := e.data.mime
    tags := e.tags.getD []
    animated := e.data.animated.getD false }

/-- Embedding of fetchEmoteSet (emoteService.ts, lines 26 to 50): any thrown
error is caught and becomes the empty list; a safeParse failure also becomes
the empty list; on success every validated record is mapped. -/
def fetchEmoteSet (response : FetchResult RawEmoteSetBody) : List Emote :=
  match response with
  | .fail => []
  | .ok body =>
    match parseSevenTVEmoteSet body with
    | none => []
    | some set => set.map mapSevenTVEmote

/-- One entry of the NodeCache instance: key, stored emote and the instant at
which the entry expires (set time plus the configured stdTTL). -/
structure CacheEntry where
  key : String
  value : Emote
  expiresAt : Nat
  deriving DecidableEq, Repr

/-- Embedding of NodeCache.get at time now: the most recently set entry for
the key, provided it has not expired. -/
def cacheGet (c : List CacheEntry) (now : Nat) (k : String) : Option Emote :=
  match c.find? (fun ent => decide (ent.key = k)) with
  | some ent => if now ≤ ent.expiresAt then some ent.value else none
  | none => none

/-- Embedding of NodeCache.set at time now with time-to-live ttl: the new
entry shadows any older entry with the same key (prepend plus
first-match-wins lookup). -/
def cacheSet (c : List CacheEntry) (now ttl : Nat) (k : String) (v : Emote) : List CacheEntry :=
  { key := k, value := v, expiresAt := now + ttl } :: c

/-- Module-level mutable state of emoteService.ts: the allEmotes array and
the emoteCache NodeCache instance. -/
structure RegistryState where
  allEmotes : List Emote
  emoteCache : List CacheEntry
  deriving DecidableEq, Repr

/-- State at process start: allEmotes is the empty array and the cache is
empty. -/
def initState : RegistryState :=
  { allEmotes := [], emoteCache := [] }

/-- Cache-population loop of fetchEmotes (lines 95 to 98): every loaded emote
is stored under its lowercased name, in list order, so a later duplicate
overwrites an earlier one. -/
def loadCacheEntries (emotes : List Emote) (now ttl : Nat) (c : List CacheEntry) : List CacheEntry :=
  emotes.foldl (fun acc e => cacheSet acc now ttl (jsToLower e.name) e) c

/-- Embedding of fetchEmotes (emoteService.ts, lines 73 to 109).  net is the
network oracle mapping a set id to the response of the emote-set endpoint.
With an empty configured id list the function warns and returns the empty
list without touching the state.  Otherwise all sets are fetched (Promise.all
keeps the results in argument order, which the List.map reproduces), the
flattened list replaces allEmotes, and every loaded emote is inserted into
the cache keyed by its lowercased name.  Nothing inside the try block can
throw, so the embedding is total. -/
def fetchEmotes (net : String → FetchResult RawEmoteSetBody) (emoteSetIds : List String)
    (now ttl : Nat) (s : RegistryState) : List Emote × RegistryState :=
  if emoteSetIds.isEmpty then ([], s)
  else
    let emoteSets := emoteSetIds.map (fun i => fetchEmoteSet (net i))
    let all := emoteSets.flatten
    (all, { allEmotes := all, emoteCache := loadCacheEntries all now ttl s.emoteCache })

/-- Instrumented result of findEmote: the returned emote, the state after the
call, and two observation flags recording whether the cache was consulted and
whether the linear scan of allEmotes ran. -/
structure FindOutcome where
  result : Option Emote
  state : RegistryState
  cacheRead : Bool
  scanned : Bool
  deriving DecidableEq, Repr

/-- Embedding of findEmote (emoteService.ts, lines 116 to 136), instrumented
with the two observation flags.  An empty name (the only falsy string) short
circuits before any cache or list access.  Otherwise the name is trimmed and
lowercased, the cache is consulted, and on a cache miss the allEmotes array
is scanned for a case-insensitively matching name; a scan hit is written back
to the cache under the normalized name. -/
def findEmoteTrace (now ttl : Nat) (s : RegistryState) (emoteName : String) : FindOutcome :=
  if emoteName = "" then
    { result := none, state := s, cacheRead := false, scanned := false }
  else
    let normalizedName := jsToLower (jsTrim emoteName)
    match cacheGet s.emoteCache now normalizedName with
    | some cached => { result := some cached, state := s, cacheRead := true, scanned := false }
    | none =>
      match s.allEmotes.find? (fun e => decide (jsToLower e.name = normalizedName)) with
      | some e =>
        { result := some e
          state := { s with emoteCache := cacheSet s.emoteCache now ttl normalizedName e }
          cacheRead := true
          scanned := true }
      | none => { result := none, state := s, cacheRead := true, scanned := true }

/-- Observable behaviour of findEmote: returned value and state after the
call. -/
def findEmote (now ttl : Nat) (s : RegistryState) (emoteName : String) :
    Option Emote × RegistryState :=
  ((findEmoteTrace now ttl s emoteName).result, (findEmoteTrace now ttl s emoteName).state)

/-- Embedding of refreshEmotes (emoteService.ts, lines 142 to 147): flush the
whole cache, then run fetchEmotes. -/
def refreshEmotes (net : String → FetchResult RawEmoteSetBody) (emoteSetIds : List String)
    (now ttl : Nat) (s : RegistryState) : List Emote × RegistryState :=
  fetchEmotes net emoteSetIds now ttl { s with emoteCache := [] }

/-- Emote sizes accepted by getEmoteUrl. -/
inductive EmoteSize where
  | s1x
  | s2x
  | s3x
  | s4x
  deriving DecidableEq, Repr

/-- Path fragment of each size. -/
def EmoteSize.render : EmoteSize → String
  | .s1x => "1x"
  | .s2x => "2x"
  | .s3x => "3x"
  | .s4x => "4x"

/-- Image formats accepted by getEmoteUrl. -/
inductive ImageFormat where
  | webp
  | avif
  | gif
  deriving DecidableEq, Repr

/-- Path fragment of each format. -/
def ImageFormat.render : ImageFormat → String
  | .webp => "webp"
  | .avif => "avif"
  | .gif => "gif"

/-- Default size parameter of getEmoteUrl and fetchEmoteImage. -/
def defaultSize : EmoteSize := EmoteSize.s3x

/-- Default format parameter of getEmoteUrl and fetchEmoteImage. -/
def defaultFormat : ImageFormat := ImageFormat.webp

/-- CDN base URL from src/config.ts. -/
def cdnBaseUrl : String := "https://cdn.7tv.app/emote"

/-- Embedding of getEmoteUrl (emoteService.ts, lines 156 to 162). -/
def getEmoteUrl (emoteId : String) (size : EmoteSize) (format : ImageFormat) : String :=
  cdnBaseUrl ++ "/" ++ emoteId ++ "/" ++ size.render ++ "." ++ format.render

/-- Content-type chosen by fetchEmoteImage from the requested format. -/
def imageContentType (format : ImageFormat) : String :=
  if format = ImageFormat.webp then "image/webp"
  else if format = ImageFormat.avif then "image/avif"
  else "image/gif"

/-- Embedding of fetchEmoteImage (emoteService.ts, lines 171 to 190): a GET
against the constructed URL; on success the raw bytes are returned together
with the content type derived from the format; a thrown error is re-thrown to
the caller, which none models. -/
def fetchEmoteImage (net : String → FetchResult (List Nat)) (emoteId : String)
    (size : EmoteSize) (format : ImageFormat) : Option (List Nat × String) :=
  match net (getEmoteUrl emoteId size format) with
  | .ok buf => some (buf, imageContentType format)
  | .fail => none

/-!
Helper lemmas: character case mapping, the JS string operations, and the
shape of the cache after a load.
-/

/-- Converting a valid code point to a character and back is the identity. -/
theorem char_toNat_ofNat (n : Nat) (h : n.isValidChar) : (Char.ofNat n).toNat = n := by
  simp [Char.ofNat, h, Char.ofNatAux, Char.toNat, UInt32.toNat, BitVec.toNat_ofNatLt]

/-- Characters with equal code points are equal. -/
theorem char_toNat_inj {c d : Char} (h : c.toNat = d.toNat) : c = d := by
  have h1 : Char.ofNat c.toNat = Char.ofNat d.toNat := by rw [h]
  rwa [Char.ofNat_toNat, Char.ofNat_toNat] at h1

/-- Character equality through code points. -/
theorem char_eq_iff {c d : Char} : c = d ↔ c.toNat = d.toNat :=
  ⟨fun h => by rw [h], char_toNat_inj⟩

/-- Code points up to 122 are valid characters. -/
theorem char_valid_of_le (n : Nat) (h : n ≤ 122) : n.isValidChar := by
  left
  omega

/-- Lowercasing after uppercasing is plain lowercasing (basic latin case
mapping). -/
theorem char_toLower_toUpper (c : Char) : c.toUpper.toLower = c.toLower := by
  unfold Char.toUpper Char.toLower
  by_cases h : c.toNat ≥ 97 ∧ c.toNat ≤ 122
  · have hv : (c.toNat - 32).isValidChar := char_valid_of_le _ (by omega)
    rw [if_pos h, char_toNat_ofNat _ hv, if_neg (by omega : ¬(c.toNat ≥ 65 ∧ c.toNat ≤ 90)),
      if_pos (by omega : c.toNat - 32 ≥ 65 ∧ c.toNat - 32 ≤ 90)]
    have he : c.toNat - 32 + 32 = c.toNat := by omega
    rw [he, Char.ofNat_toNat]
  · rw [if_neg h]

/-- Uppercasing does not change whether a character is whitespace. -/
theorem char_isWhitespace_toUpper (c : Char) : c.toUpper.isWhitespace = c.isWhitespace := by
  unfold Char.toUpper
  by_cases h : c.toNat ≥ 97 ∧ c.toNat ≤ 122
  · rw [if_pos h]
    have ht := char_toNat_ofNat (c.toNat - 32) (char_valid_of_le _ (by omega))
    have hsp : (' ' : Char).toNat = 32 := by decide
    have htab : ('\t' : Char).toNat = 9 := by decide
    have hcr : ('\r' : Char).toNat = 13 := by decide
    have hlf : ('\n' : Char).toNat = 10 := by decide
    simp only [Char.isWhitespace, char_eq_iff, ht, hsp, htab, hcr, hlf]
    have hA : (decide (c.toNat - 32 = 32) || decide (c.toNat - 32 = 9) ||
        decide (c.toNat - 32 = 13) || decide (c.toNat - 32 = 10)) = false := by
      simp only [Bool.or_eq_false_iff, decide_eq_false_iff_not]
      omega
    have hB : (decide (c.toNat = 32) || decide (c.toNat = 9) ||
        decide (c.toNat = 13) || decide (c.toNat = 10)) = false := by
      simp only [Bool.or_eq_false_iff, decide_eq_false_iff_not]
      omega
    rw [hA, hB]
  · rw [if_neg h]

/-- Lowercasing an uppercased string is lowercasing the string itself. -/
theorem jsToLower_jsToUpper (s : String) : jsToLower (jsToUpper s) = jsToLower s := by
  simp only [jsToLower, jsToUpper, List.map_map]
  congr 1
  apply List.map_congr_left
  intro c _
  exact char_toLower_toUpper c

/-- Trimming commutes with uppercasing. -/
theorem jsTrim_jsToUpper (s : String) : jsTrim (jsToUpper s) = jsToUpper (jsTrim s) := by
  simp only [jsTrim, jsToUpper]
  congr 1
  have hws : (fun c => Char.isWhitespace (Char.toUpper c)) = Char.isWhitespace := by
    funext c
    exact char_isWhitespace_toUpper c
  rw [List.dropWhile_map, Function.comp_def, hws, ← List.map_reverse, List.dropWhile_map,
    Function.comp_def, hws, ← List.map_reverse]

/-- Closed form of the cache-population loop: the new entries, in reverse
list order, sit in front of the previous cache contents. -/
theorem loadCacheEntries_eq (emotes : List Emote) (now ttl : Nat) (c : List CacheEntry) :
    loadCacheEntries emotes now ttl c =
      (emotes.map (fun e =>
        ({ key := jsToLower e.name, value := e, expiresAt := now + ttl } : CacheEntry))).reverse ++ c := by
  induction emotes generalizing c with
  | nil => rfl
  | cons e es ih =>
    show loadCacheEntries es now ttl (cacheSet c now ttl (jsToLower e.name) e) = _
    rw [ih]
    simp [cacheSet, List.append_assoc]

/-- Looking up a key that none of the prefix entries carries skips the
prefix. -/
theorem cacheGet_append_of_no_key (pre old : List CacheEntry) (t : Nat) (k : String)
    (h : ∀ ent ∈ pre, ent.key ≠ k) :
    cacheGet (pre ++ old) t k = cacheGet old t k := by
  induction pre with
  | nil => rfl
  | cons a as ih =>
    have ha : decide (a.key = k) = false := by
      simp only [decide_eq_false_iff_not]
      exact h a (List.mem_cons_self a as)
    simp only [cacheGet, List.cons_append, List.find?]
    rw [ha]
    exact ih (fun ent hm => h ent (List.mem_cons_of_mem a hm))

/-- Records with a missing id or a missing name are rejected by the record
schema. -/
theorem parseSevenTVEmote_none_of_missing (r : RawSevenTVEmote)
    (h : r.id = none ∨ r.name = none) : parseSevenTVEmote r = none := by
  unfold parseSevenTVEmote
  rcases h with h | h
  · rw [h]
  · rw [h]
    cases r.id <;> rfl

/-- One rejected record rejects the whole array (zod z.array semantics). -/
theorem parseSevenTVEmoteList_none_of_mem (rs : List RawSevenTVEmote) (r : RawSevenTVEmote)
    (hr : r ∈ rs) (hn : parseSevenTVEmote r = none) :
    parseSevenTVEmoteList rs = none := by
  induction rs with
  | nil => cases hr
  | cons a as ih =>
    cases hr with
    | head =>
      unfold parseSevenTVEmoteList
      rw [hn]
    | tail _ hm =>
      unfold parseSevenTVEmoteList
      rw [ih hm]
      cases parseSevenTVEmote a <;> rfl

/-- Unfolding of fetchEmotes for a non-empty configured id list. -/
theorem fetchEmotes_eq (net : String → FetchResult RawEmoteSetBody) (ids : List String)
    (now ttl : Nat) (s : RegistryState) (h : ids ≠ []) :
    fetchEmotes net ids now ttl s =
      ((ids.map fun i => fetchEmoteSet (net i)).flatten,
       { allEmotes := (ids.map fun i => fetchEmoteSet (net i)).flatten,
         emoteCache :=
           loadCacheEntries ((ids.map fun i => fetchEmoteSet (net i)).flatten) now ttl
             s.emoteCache }) := by
  cases ids with
  | nil => exact absurd rfl h
  | cons a l => rfl

/-- Cache lookup immediately after a load: when e is loaded and is the only
loaded emote with its lowercased name, the lookup under that name hits e. -/
theorem cacheGet_loadCacheEntries_of_uniq (emotes : List Emote) (now ttl : Nat)
    (c : List CacheEntry) (e : Emote) (he : e ∈ emotes)
    (huniq : ∀ f ∈ emotes, jsToLower f.name = jsToLower e.name → f = e) :
    cacheGet (loadCacheEntries emotes now ttl c) now (jsToLower e.name) = some e := by
  rw [loadCacheEntries_eq]
  have hmem :
      ({ key := jsToLower e.name, value := e, expiresAt := now + ttl } : CacheEntry) ∈
        (emotes.map (fun f =>
          ({ key := jsToLower f.name, value := f, expiresAt := now + ttl } : CacheEntry))).reverse := by
    rw [List.mem_reverse]
    exact List.mem_map_of_mem _ he
  have hsome :
      ((emotes.map (fun f =>
          ({ key := jsToLower f.name, value := f, expiresAt := now + ttl } : CacheEntry))).reverse.find?
        (fun ent => decide (ent.key = jsToLower e.name))).isSome := by
    rw [List.find?_isSome]
    exact ⟨_, hmem, by simp⟩
  obtain ⟨y, hy⟩ := Option.isSome_iff_exists.mp hsome
  have hyp := List.find?_some hy
  have hymem := List.mem_of_find?_eq_some hy
  rw [List.mem_reverse, List.mem_map] at hymem
  obtain ⟨f, hf, hfy⟩ := hymem
  have hkey : y.key = jsToLower e.name := of_decide_eq_true hyp
  have hfe : f = e := by
    apply huniq f hf
    rw [← hfy] at hkey
    exact hkey
  subst hfe
  subst hfy
  unfold cacheGet
  rw [List.find?_append, hy]
  simp [Nat.le_add_right]

/-- Strings whose character list is empty are the empty string. -/
theorem string_eq_empty_of_data_eq_nil {s : String} (h : s.data = []) : s = "" := by
  cases s with
  | mk d =>
    have hd : d = [] := h
    subst hd
    rfl

/-- Uppercasing maps only the empty string to the empty string. -/
theorem jsToUpper_ne_empty {s : String} (h : s ≠ "") : jsToUpper s ≠ "" := by
  intro hc
  apply h
  apply string_eq_empty_of_data_eq_nil
  have hd := congrArg String.data hc
  simp only [jsToUpper] at hd
  exact List.map_eq_nil_iff.mp hd

/-!
Concrete data used by counterexamples and witnesses.
-/

/-- Valid raw record: id e1, name Alpha, with an owner and data. -/
def rawAlpha : RawSevenTVEmote :=
  { id := some "e1", name := some "Alpha", owner := some { username := some "ana" },
    visibility := some 1, data := some { mime := some "image/webp", animated := some false },
    tags := some ["greeting"] }

/-- Valid raw record: id e2, name Beta, without owner or tags. -/
def rawBeta : RawSevenTVEmote :=
  { id := some "e2", name := some "Beta", owner := none, visibility := none,
    data := some { mime := none, animated := some true }, tags := none }

/-- Malformed raw record: the id key is missing. -/
def rawMissingId : RawSevenTVEmote :=
  { id := none, name := some "Broken", owner := none, visibility := none,
    data := some { mime := none, animated := none }, tags := none }

/-- Set body holding only the two valid records. -/
def bodyTwoValid : RawEmoteSetBody := { emotes := some [rawAlpha, rawBeta] }

/-- Set body holding the two valid records and, between them, the record
missing its id. -/
def bodyMixed : RawEmoteSetBody := { emotes := some [rawAlpha, rawMissingId, rawBeta] }

/-- C1.  The claim says a set response with one record missing id among two
valid records yields exactly the 2 valid Emotes.  The code validates the
whole body with SevenTVEmoteSetSchema.safeParse, and zod z.array rejects the
entire array when one element is invalid, so fetchEmoteSet returns the empty
list instead: the two valid records on their own yield 2 emotes, but adding
the malformed record yields 0. -/
theorem claim1_counterexample :
    (fetchEmoteSet (FetchResult.ok bodyTwoValid)).length = 2 ∧
    fetchEmoteSet (FetchResult.ok bodyMixed) = [] := by
  decide

/-- C1 (amended): a set response containing a record with a missing id or a
missing name fails validation of the whole set, so fetchEmoteSet yields the
empty list (degrade-to-empty at set granularity), not the valid subset. -/
theorem claim1_malformed_record_rejects_whole_set (body : RawEmoteSetBody)
    (rs : List RawSevenTVEmote) (r : RawSevenTVEmote)
    (hb : body.emotes = some rs) (hr : r ∈ rs) (hbad : r.id = none ∨ r.name = none) :
    fetchEmoteSet (FetchResult.ok body) = [] := by
  have hp : parseSevenTVEmoteSet body = none := by
    unfold parseSevenTVEmoteSet
    rw [hb]
    exact parseSevenTVEmoteList_none_of_mem rs r hr (parseSevenTVEmote_none_of_missing r hbad)
  simp only [fetchEmoteSet, hp]

/-- Witness for C1: the amended theorem applied to the concrete mixed body. -/
theorem claim1_witness : fetchEmoteSet (FetchResult.ok bodyMixed) = [] :=
  claim1_malformed_record_rejects_whole_set bodyMixed [rawAlpha, rawMissingId, rawBeta]
    rawMissingId rfl (by decide) (Or.inl rfl)

/-- Raw record whose id and name are present but empty. -/
def rawEmptyNames : RawSevenTVEmote :=
  { id := some "", name := some "", owner := none, visibility := none,
    data := some { mime := none, animated := none }, tags := none }

/-- Set body holding only the empty-id empty-name record. -/
def bodyEmptyNames : RawEmoteSetBody := { emotes := some [rawEmptyNames] }

/-- The Emote produced from rawEmptyNames. -/
def emoteEmptyNames : Emote :=
  { id := "", name := "", owner := "Desconhecido", visibility := none, mime := none,
    tags := [], animated := false }

/-- Validated record with empty id and name. -/
def stvEmptyNames : SevenTVEmote :=
  { id := "", name := "", owner := none, visibility := none,
    data := { mime := none, animated := none }, tags := none }

/-- C2.  The claim says construction fails when id or name is empty and every
constructed Emote has non-empty id and name.  In the code z.string() accepts
the empty string, so a record with empty id and name passes the whole
pipeline and produces an Emote whose id and name are both empty. -/
theorem claim2_counterexample :
    fetchEmoteSet (FetchResult.ok bodyEmptyNames) = [emoteEmptyNames] ∧
    emoteEmptyNames.id = "" ∧ emoteEmptyNames.name = "" := by
  decide

/-- C2 (amended): a raw record is rejected when id or name is missing
(absent), but an empty-string id or name is accepted: construction is total
on validated records and copies id and name through unchanged, so a
constructed Emote may carry empty id or name. -/
theorem claim2_missing_rejected_empty_kept (r : RawSevenTVEmote) (e : SevenTVEmote)
    (hbad : r.id = none ∨ r.name = none) :
    parseSevenTVEmote r = none ∧
    (mapSevenTVEmote e).id = e.id ∧ (mapSevenTVEmote e).name = e.name :=
  ⟨parseSevenTVEmote_none_of_missing r hbad, rfl, rfl⟩

/-- Witness for C2: the amended theorem at the concrete missing-id record and
the concrete empty-name validated record. -/
theorem claim2_witness :
    parseSevenTVEmote rawMissingId = none ∧
    (mapSevenTVEmote stvEmptyNames).id = stvEmptyNames.id ∧
    (mapSevenTVEmote stvEmptyNames).name = stvEmptyNames.name :=
  claim2_missing_rejected_empty_kept rawMissingId stvEmptyNames (Or.inl rfl)

/-- A findEmote call right after a load, for a nonempty query whose
normalized form is the lowercased name of e, returns the cached e. -/
theorem findEmote_after_load_hit (A : List Emote) (c0 : List CacheEntry) (now ttl : Nat)
    (e : Emote) (q : String) (hq : q ≠ "")
    (hnorm : jsToLower (jsTrim q) = jsToLower e.name)
    (hget : cacheGet (loadCacheEntries A now ttl c0) now (jsToLower e.name) = some e) :
    (findEmote now ttl
      { allEmotes := A, emoteCache := loadCacheEntries A now ttl c0 } q).1 = some e := by
  unfold findEmote findEmoteTrace
  rw [if_neg hq]
  simp only [hnorm, hget]

/-- C3 (amended): for every Emote e present after a load whose name is
nonempty, already trimmed, and whose lowercased name no other loaded emote
shares, find on e.name and on e.name uppercased both return e itself (hence
an Emote with the same id).  The extra hypotheses are forced by the code: an
empty name short-circuits find, an untrimmed name normalizes away from its
own cache key, and on duplicate lowercased names the cache holds the later
emote, whose id differs. -/
theorem claim3_case_insensitive_lookup (net : String → FetchResult RawEmoteSetBody)
    (ids : List String) (now ttl : Nat) (s : RegistryState) (e : Emote)
    (he : e ∈ (fetchEmotes net ids now ttl s).1)
    (hne0 : e.name ≠ "")
    (htrim : jsTrim e.name = e.name)
    (huniq : ∀ f ∈ (fetchEmotes net ids now ttl s).1,
        jsToLower f.name = jsToLower e.name → f = e) :
    (findEmote now ttl (fetchEmotes net ids now ttl s).2 e.name).1 = some e ∧
    (findEmote now ttl (fetchEmotes net ids now ttl s).2 (jsToUpper e.name)).1 = some e := by
  have hne : ids ≠ [] := by
    rintro rfl
    simp [fetchEmotes] at he
  rw [fetchEmotes_eq net ids now ttl s hne] at he huniq ⊢
  have hget :
      cacheGet
        (loadCacheEntries ((ids.map fun i => fetchEmoteSet (net i)).flatten) now ttl
          s.emoteCache) now (jsToLower e.name) = some e :=
    cacheGet_loadCacheEntries_of_uniq _ now ttl _ e he huniq
  constructor
  · exact findEmote_after_load_hit _ _ now ttl e e.name hne0 (by rw [htrim]) hget
  · apply findEmote_after_load_hit _ _ now ttl e (jsToUpper e.name) (jsToUpper_ne_empty hne0)
      _ hget
    rw [jsTrim_jsToUpper, htrim, jsToLower_jsToUpper]

/-- Duplicate-name raw record one: id id1, name Dup. -/
def rawDup1 : RawSevenTVEmote :=
  { id := some "id1", name := some "Dup", owner := none, visibility := none,
    data := some { mime := none, animated := none }, tags := none }

/-- Duplicate-name raw record two: id id2, name Dup. -/
def rawDup2 : RawSevenTVEmote :=
  { id := some "id2", name := some "Dup", owner := none, visibility := none,
    data := some { mime := none, animated := none }, tags := none }

/-- Network oracle serving the two duplicate-name records in one set. -/
def netDup : String → FetchResult RawEmoteSetBody :=
  fun _ => FetchResult.ok { emotes := some [rawDup1, rawDup2] }

/-- Emote produced from rawDup1. -/
def emoteDup1 : Emote :=
  { id := "id1", name := "Dup", owner := "Desconhecido", visibility := none, mime := none,
    tags := [], animated := false }

/-- Emote produced from rawDup2. -/
def emoteDup2 : Emote :=
  { id := "id2", name := "Dup", owner := "Desconhecido", visibility := none, mime := none,
    tags := [], animated := false }

/-- C3.  The claim says find(e.name) returns an Emote whose id equals e.id
for every e present after a load.  With two loaded emotes sharing the name
Dup, the cache keeps the later one, so for the earlier emote (id1) find
returns the emote with id2. -/
theorem claim3_counterexample :
    emoteDup1 ∈ (fetchEmotes netDup ["setA"] 0 3600 initState).1 ∧
    (findEmote 0 3600 (fetchEmotes netDup ["setA"] 0 3600 initState).2 emoteDup1.name).1 =
      some emoteDup2 ∧
    emoteDup2.id ≠ emoteDup1.id := by
  decide

/-- Unique-name raw record for the C3 witness. -/
def rawWit : RawSevenTVEmote :=
  { id := some "w1", name := some "Wit", owner := none, visibility := none,
    data := some { mime := none, animated := none }, tags := none }

/-- Network oracle serving only rawWit. -/
def netWit : String → FetchResult RawEmoteSetBody :=
  fun _ => FetchResult.ok { emotes := some [rawWit] }

/-- Emote produced from rawWit. -/
def emoteWit : Emote :=
  { id := "w1", name := "Wit", owner := "Desconhecido", visibility := none, mime := none,
    tags := [], animated := false }

/-- Witness for C3: the amended theorem at the concrete one-emote load. -/
theorem claim3_witness :
    (findEmote 0 3600 (fetchEmotes netWit ["setA"] 0 3600 initState).2 emoteWit.name).1 =
      some emoteWit ∧
    (findEmote 0 3600 (fetchEmotes netWit ["setA"] 0 3600 initState).2
      (jsToUpper emoteWit.name)).1 = some emoteWit :=
  claim3_case_insensitive_lookup netWit ["setA"] 0 3600 initState emoteWit (by decide)
    (by decide) (by decide) (by decide)

/-- C4 (confirmed): after fetchEmotes (loadAll) or refreshEmotes, allEmotes
is exactly the flattening of the per-set results in configured set-id order
(Promise.all keeps argument order, so completion order is irrelevant), with
the previous contents wholly replaced.  The hypothesis covers the empty
configured list: there fetchEmotes returns early without assigning
allEmotes, but the configured id list is fixed at process start and
allEmotes starts empty, so allEmotes is empty whenever the list is. -/
theorem claim4_load_replaces_allEmotes (net : String → FetchResult RawEmoteSetBody)
    (ids : List String) (now ttl : Nat) (s : RegistryState)
    (hinv : ids = [] → s.allEmotes = []) :
    (fetchEmotes net ids now ttl s).2.allEmotes =
      (ids.map fun i => fetchEmoteSet (net i)).flatten ∧
    (fetchEmotes net ids now ttl s).1 = (ids.map fun i => fetchEmoteSet (net i)).flatten ∧
    (refreshEmotes net ids now ttl s).2.allEmotes =
      (ids.map fun i => fetchEmoteSet (net i)).flatten := by
  by_cases h : ids = []
  · subst h
    simp [fetchEmotes, refreshEmotes, hinv rfl]
  · rw [fetchEmotes_eq net ids now ttl s h]
    unfold refreshEmotes
    rw [fetchEmotes_eq net ids now ttl _ h]
    exact ⟨rfl, rfl, rfl⟩

/-- Network oracle for the C4 witness: setA answers with the two valid
records, anything else fails. -/
def netAB : String → FetchResult RawEmoteSetBody :=
  fun i => if i = "setA" then FetchResult.ok bodyTwoValid else FetchResult.fail

/-- Witness for C4: the theorem at a concrete two-set configuration. -/
theorem claim4_witness :
    (fetchEmotes netAB ["setA", "setB"] 0 3600 initState).2.allEmotes =
      (["setA", "setB"].map fun i => fetchEmoteSet (netAB i)).flatten ∧
    (fetchEmotes netAB ["setA", "setB"] 0 3600 initState).1 =
      (["setA", "setB"].map fun i => fetchEmoteSet (netAB i)).flatten ∧
    (refreshEmotes netAB ["setA", "setB"] 0 3600 initState).2.allEmotes =
      (["setA", "setB"].map fun i => fetchEmoteSet (netAB i)).flatten :=
  claim4_load_replaces_allEmotes netAB ["setA", "setB"] 0 3600 initState (by decide)

/-- C5 (confirmed): fetchEmoteSet degrades to the empty list on a thrown
error and on a response-shape mismatch, and consequently a load over two
sets where the first yields 3 emotes and the second fails returns exactly
those 3 emotes; nothing is thrown (the embedding of fetchEmotes is total
because every failure is absorbed inside fetchEmoteSet). -/
theorem claim5_degraded_load (net : String → FetchResult RawEmoteSetBody) (a b : String)
    (now ttl : Nat) (s : RegistryState) (es : List Emote) (body : RawEmoteSetBody)
    (ha : fetchEmoteSet (net a) = es) (hlen : es.length = 3)
    (hb : net b = FetchResult.fail) (hp : parseSevenTVEmoteSet body = none) :
    fetchEmoteSet (FetchResult.fail : FetchResult RawEmoteSetBody) = [] ∧
    fetchEmoteSet (FetchResult.ok body) = [] ∧
    (fetchEmotes net [a, b] now ttl s).1 = es ∧
    ((fetchEmotes net [a, b] now ttl s).1).length = 3 := by
  have hmain : (fetchEmotes net [a, b] now ttl s).1 = es := by
    rw [fetchEmotes_eq net [a, b] now ttl s (by simp)]
    simp only [List.map_cons, List.map_nil, List.flatten_cons, List.flatten_nil, ha, hb]
    simp [fetchEmoteSet]
  refine ⟨rfl, by simp only [fetchEmoteSet, hp], hmain, by rw [hmain]; exact hlen⟩

/-- Third valid raw record, so a set can yield 3 emotes. -/
def rawGamma : RawSevenTVEmote :=
  { id := some "e3", name := some "Gamma", owner := none, visibility := none,
    data := some { mime := none, animated := none }, tags := none }

/-- Set body with three valid records. -/
def bodyThreeValid : RawEmoteSetBody := { emotes := some [rawAlpha, rawBeta, rawGamma] }

/-- Network oracle for the C5 witness: setA yields the three valid records,
anything else fails. -/
def netThree : String → FetchResult RawEmoteSetBody :=
  fun i => if i = "setA" then FetchResult.ok bodyThreeValid else FetchResult.fail

/-- Witness for C5: the theorem at the concrete degraded two-set load. -/
theorem claim5_witness :
    fetchEmoteSet (FetchResult.fail : FetchResult RawEmoteSetBody) = [] ∧
    fetchEmoteSet (FetchResult.ok ({ emotes := none } : RawEmoteSetBody)) = [] ∧
    (fetchEmotes netThree ["setA", "setB"] 0 3600 initState).1 =
      fetchEmoteSet (FetchResult.ok bodyThreeValid) ∧
    ((fetchEmotes netThree ["setA", "setB"] 0 3600 initState).1).length = 3 :=
  claim5_degraded_load netThree "setA" "setB" 0 3600 initState
    (fetchEmoteSet (FetchResult.ok bodyThreeValid)) { emotes := none }
    (by decide) (by decide) (by decide) rfl

/-- C6 (confirmed): when two configured sets each contribute one emote whose
lowercased name is x (e.g. both named X) with different ids, a find on x
right after the load returns the emote of the later set: the cache loop
inserts in flattened order and a later set overwrites an earlier one under
the same normalized key. -/
theorem claim6_last_write_wins (net : String → FetchResult RawEmoteSetBody) (a b : String)
    (now ttl : Nat) (s : RegistryState) (e1 e2 : Emote)
    (ha : fetchEmoteSet (net a) = [e1]) (hb : fetchEmoteSet (net b) = [e2])
    (_h1 : jsToLower e1.name = "x") (h2 : jsToLower e2.name = "x") (_hid : e1.id ≠ e2.id) :
    (findEmote now ttl (fetchEmotes net [a, b] now ttl s).2 "x").1 = some e2 := by
  rw [fetchEmotes_eq net [a, b] now ttl s (by simp)]
  have hA : (([a, b].map fun i => fetchEmoteSet (net i)).flatten : List Emote) = [e1, e2] := by
    simp [ha, hb]
  rw [hA]
  have hget : cacheGet (loadCacheEntries [e1, e2] now ttl s.emoteCache) now "x" = some e2 := by
    rw [loadCacheEntries_eq]
    simp [cacheGet, List.find?_cons, h2, Nat.le_add_right]
  unfold findEmote findEmoteTrace
  rw [if_neg (by decide : ¬(("x" : String) = ""))]
  simp only [show jsToLower (jsTrim "x") = "x" from by decide, hget]

/-- Raw record named X with id x1, for the C6 witness. -/
def rawX1 : RawSevenTVEmote :=
  { id := some "x1", name := some "X", owner := none, visibility := none,
    data := some { mime := none, animated := none }, tags := none }

/-- Raw record named X with id x2, for the C6 witness. -/
def rawX2 : RawSevenTVEmote :=
  { id := some "x2", name := some "X", owner := none, visibility := none,
    data := some { mime := none, animated := none }, tags := none }

/-- Network oracle: set s1 contributes rawX1, every other set rawX2. -/
def netX : String → FetchResult RawEmoteSetBody :=
  fun i => if i = "s1" then FetchResult.ok { emotes := some [rawX1] }
           else FetchResult.ok { emotes := some [rawX2] }

/-- Emote produced from rawX1. -/
def emoteX1 : Emote :=
  { id := "x1", name := "X", owner := "Desconhecido", visibility := none, mime := none,
    tags := [], animated := false }

/-- Emote produced from rawX2. -/
def emoteX2 : Emote :=
  { id := "x2", name := "X", owner := "Desconhecido", visibility := none, mime := none,
    tags := [], animated := false }

/-- Witness for C6: two concrete sets both named X, different ids; find on x
returns the emote of the later set. -/
theorem claim6_witness :
    (findEmote 0 3600 (fetchEmotes netX ["s1", "s2"] 0 3600 initState).2 "x").1 =
      some emoteX2 :=
  claim6_last_write_wins netX "s1" "s2" 0 3600 initState emoteX1 emoteX2 (by decide)
    (by decide) (by decide) (by decide) (by decide)

/-- C7 (amended): for every nonempty name whose normalized form (trim then
lowercase, the normalization find applies) equals the lowercased name of
some emote in allEmotes, find on that name with the cache entirely flushed
still succeeds through the linear scan and re-inserts the found emote into
the cache under the normalized name.  The claim needs two corrections forced
by the code: the empty name never reaches the scan, and the comparison is
against the normalized form of the queried name, not its plain lowercased
form. -/
theorem claim7_scan_fallback (s : RegistryState) (name : String) (now ttl : Nat)
    (hflush : s.emoteCache = []) (hname : name ≠ "")
    (hmatch : ∃ e ∈ s.allEmotes, jsToLower e.name = jsToLower (jsTrim name)) :
    ∃ e, (findEmoteTrace now ttl s name).result = some e ∧
      (findEmoteTrace now ttl s name).scanned = true ∧
      jsToLower e.name = jsToLower (jsTrim name) ∧
      cacheGet (findEmoteTrace now ttl s name).state.emoteCache now
        (jsToLower (jsTrim name)) = some e := by
  have hsome :
      (s.allEmotes.find? fun e => decide (jsToLower e.name = jsToLower (jsTrim name))).isSome := by
    rw [List.find?_isSome]
    obtain ⟨e, he, heq⟩ := hmatch
    exact ⟨e, he, by simp [heq]⟩
  obtain ⟨e0, he0⟩ := Option.isSome_iff_exists.mp hsome
  have hp0 : jsToLower e0.name = jsToLower (jsTrim name) := by
    have hb := List.find?_some he0
    simpa using hb
  have htr : findEmoteTrace now ttl s name =
      { result := some e0,
        state := { s with
          emoteCache := cacheSet s.emoteCache now ttl (jsToLower (jsTrim name)) e0 },
        cacheRead := true, scanned := true } := by
    unfold findEmoteTrace
    rw [if_neg hname]
    simp only [hflush, cacheGet, List.find?_nil, he0]
  refine ⟨e0, ?_, ?_, hp0, ?_⟩
  · rw [htr]
  · rw [htr]
  · rw [htr]
    simp [hflush, cacheGet, cacheSet, List.find?_cons, Nat.le_add_right]

/-- Registry state after loading the empty-name emote, with the cache
flushed. -/
def stateEmptyName : RegistryState := { allEmotes := [emoteEmptyNames], emoteCache := [] }

/-- C7.  The claim quantifies over every name whose lowercase form matches
some emote in allEmotes.  The empty name matches the loadable empty-named
emote, yet find returns not-found without scanning, because the falsy-name
guard fires first. -/
theorem claim7_counterexample :
    (∃ e ∈ stateEmptyName.allEmotes, jsToLower e.name = jsToLower "") ∧
    stateEmptyName.emoteCache = [] ∧
    (findEmote 0 3600 stateEmptyName "").1 = none ∧
    (findEmoteTrace 0 3600 stateEmptyName "").scanned = false := by
  decide

/-- Registry state holding only emoteWit, with the cache flushed. -/
def stateWit : RegistryState := { allEmotes := [emoteWit], emoteCache := [] }

/-- Witness for C7: a query differing from the stored name in case and
whitespace still succeeds through the scan and re-populates the cache. -/
theorem claim7_witness :
    ∃ e, (findEmoteTrace 0 3600 stateWit " WIT ").result = some e ∧
      (findEmoteTrace 0 3600 stateWit " WIT ").scanned = true ∧
      jsToLower e.name = jsToLower (jsTrim " WIT ") ∧
      cacheGet (findEmoteTrace 0 3600 stateWit " WIT ").state.emoteCache 0
        (jsToLower (jsTrim " WIT ")) = some e :=
  claim7_scan_fallback stateWit " WIT " 0 3600 rfl (by decide) (by decide)

/-- C8 (confirmed): getEmoteUrl builds exactly cdnBase/emoteId/size.format,
the defaults are 3x and webp, and fetchEmoteImage pairs the fetched bytes
with the content type determined by the format (webp, avif and gif mapping
to the corresponding image types). -/
theorem claim8_url_and_content_type (emoteId : String) (size : EmoteSize)
    (format : ImageFormat) (net : String → FetchResult (List Nat)) (buf : List Nat)
    (h : net (getEmoteUrl emoteId size format) = FetchResult.ok buf) :
    getEmoteUrl emoteId size format =
      cdnBaseUrl ++ "/" ++ emoteId ++ "/" ++ size.render ++ "." ++ format.render ∧
    getEmoteUrl emoteId defaultSize defaultFormat =
      cdnBaseUrl ++ "/" ++ emoteId ++ "/3x.webp" ∧
    getEmoteUrl "abc123" EmoteSize.s2x ImageFormat.gif =
      "https://cdn.7tv.app/emote/abc123/2x.gif" ∧
    imageContentType ImageFormat.webp = "image/webp" ∧
    imageContentType ImageFormat.avif = "image/avif" ∧
    imageContentType ImageFormat.gif = "image/gif" ∧
    fetchEmoteImage net emoteId size format = some (buf, imageContentType format) := by
  refine ⟨rfl, ?_, by decide, rfl, rfl, rfl, ?_⟩
  · simp [getEmoteUrl, defaultSize, defaultFormat, EmoteSize.render, ImageFormat.render,
      cdnBaseUrl, String.append_assoc]
  · simp only [fetchEmoteImage, h]

/-- Network oracle for the C8 witness: every URL answers with three bytes. -/
def netBytes : String → FetchResult (List Nat) :=
  fun _ => FetchResult.ok [7, 7, 7]

/-- Witness for C8: the theorem at the concrete id abc123, size 2x, format
gif. -/
theorem claim8_witness :
    getEmoteUrl "abc123" EmoteSize.s2x ImageFormat.gif =
      cdnBaseUrl ++ "/" ++ "abc123" ++ "/" ++ EmoteSize.s2x.render ++ "." ++
        ImageFormat.gif.render ∧
    getEmoteUrl "abc123" defaultSize defaultFormat =
      cdnBaseUrl ++ "/" ++ "abc123" ++ "/3x.webp" ∧
    getEmoteUrl "abc123" EmoteSize.s2x ImageFormat.gif =
      "https://cdn.7tv.app/emote/abc123/2x.gif" ∧
    imageContentType ImageFormat.webp = "image/webp" ∧
    imageContentType ImageFormat.avif = "image/avif" ∧
    imageContentType ImageFormat.gif = "image/gif" ∧
    fetchEmoteImage netBytes "abc123" EmoteSize.s2x ImageFormat.gif =
      some ([7, 7, 7], imageContentType ImageFormat.gif) :=
  claim8_url_and_content_type "abc123" EmoteSize.s2x ImageFormat.gif netBytes [7, 7, 7] rfl

/-- C9 (confirmed): a find call with the empty name returns not-found
immediately: the state (both allEmotes and the cache) is returned untouched,
the cache is never consulted and the scan never runs. -/
theorem claim9_empty_name_short_circuit (now ttl : Nat) (s : RegistryState) :
    findEmoteTrace now ttl s "" =
      { result := none, state := s, cacheRead := false, scanned := false } ∧
    findEmote now ttl s "" = (none, s) :=
  ⟨rfl, rfl⟩

/-- When the cache holds an unexpired entry under its own normalized key,
find returns it without scanning. -/
theorem findEmote_hit_of_cacheGet (st : RegistryState) (t ttl : Nat) (k : String) (v : Emote)
    (hnorm : jsToLower (jsTrim k) = k) (hk0 : k ≠ "")
    (hget : cacheGet st.emoteCache t k = some v) :
    (findEmote t ttl st k).1 = some v := by
  unfold findEmote findEmoteTrace
  rw [if_neg hk0]
  simp only [hnorm, hget]

/-- When the cache misses under a normalized key and no emote in allEmotes
has that lowercased name, find returns not-found. -/
theorem findEmote_none_of_miss (st : RegistryState) (t ttl : Nat) (k : String)
    (hnorm : jsToLower (jsTrim k) = k) (hk0 : k ≠ "")
    (hget : cacheGet st.emoteCache t k = none)
    (hscan : ∀ e ∈ st.allEmotes, jsToLower e.name ≠ k) :
    (findEmote t ttl st k).1 = none := by
  unfold findEmote findEmoteTrace
  rw [if_neg hk0]
  have hfind :
      st.allEmotes.find? (fun e => decide (jsToLower e.name = k)) = none := by
    rw [List.find?_eq_none]
    intro x hx
    simp only [decide_eq_true_eq]
    exact hscan x hx
  simp only [hnorm, hget, hfind]

/-- C10 (confirmed): fetchEmotes only adds cache entries keyed by the
lowercased names of the newly loaded emotes and removes none, so for a key k
that no newly loaded emote maps to, every lookup of k behaves exactly as on
the old cache: an unexpired pre-existing entry is still returned by find,
and once it expires find misses (the new allEmotes cannot satisfy the scan).
Only refreshEmotes flushes: after a refresh every cache entry is keyed by a
newly loaded emote. -/
theorem claim10_load_keeps_foreign_cache_entries
    (net : String → FetchResult RawEmoteSetBody) (ids : List String) (now ttl : Nat)
    (s : RegistryState) (k : String)
    (hk : ∀ e ∈ (fetchEmotes net ids now ttl s).2.allEmotes, jsToLower e.name ≠ k) :
    (∀ ent ∈ s.emoteCache, ent ∈ (fetchEmotes net ids now ttl s).2.emoteCache) ∧
    (∀ ent ∈ (fetchEmotes net ids now ttl s).2.emoteCache,
      ent ∈ s.emoteCache ∨
        ∃ e ∈ (fetchEmotes net ids now ttl s).2.allEmotes, ent.key = jsToLower e.name) ∧
    (∀ t, cacheGet (fetchEmotes net ids now ttl s).2.emoteCache t k =
      cacheGet s.emoteCache t k) ∧
    (∀ t v, jsToLower (jsTrim k) = k → k ≠ "" → cacheGet s.emoteCache t k = some v →
      (findEmote t ttl (fetchEmotes net ids now ttl s).2 k).1 = some v) ∧
    (∀ t, jsToLower (jsTrim k) = k → k ≠ "" → cacheGet s.emoteCache t k = none →
      (findEmote t ttl (fetchEmotes net ids now ttl s).2 k).1 = none) ∧
    (∀ ent ∈ (refreshEmotes net ids now ttl s).2.emoteCache,
      ∃ e ∈ (refreshEmotes net ids now ttl s).2.allEmotes, ent.key = jsToLower e.name) := by
  by_cases h : ids = []
  · subst h
    refine ⟨fun ent h1 => h1, fun ent h1 => Or.inl h1, fun t => rfl, ?_, ?_, ?_⟩
    · intro t v hnorm hk0 hget
      exact findEmote_hit_of_cacheGet s t ttl k v hnorm hk0 hget
    · intro t hnorm hk0 hget
      exact findEmote_none_of_miss s t ttl k hnorm hk0 hget hk
    · intro ent h1
      cases h1
  · have hcge :
        ∀ t, cacheGet (fetchEmotes net ids now ttl s).2.emoteCache t k =
          cacheGet s.emoteCache t k := by
      intro t
      rw [fetchEmotes_eq net ids now ttl s h]
      simp only
      rw [loadCacheEntries_eq]
      apply cacheGet_append_of_no_key
      intro ent hent
      rw [List.mem_reverse, List.mem_map] at hent
      obtain ⟨e, he, hee⟩ := hent
      rw [← hee]
      have hke : e ∈ (fetchEmotes net ids now ttl s).2.allEmotes := by
        rw [fetchEmotes_eq net ids now ttl s h]
        exact he
      exact hk e hke
    refine ⟨?_, ?_, hcge, ?_, ?_, ?_⟩
    · intro ent h1
      rw [fetchEmotes_eq net ids now ttl s h]
      simp only
      rw [loadCacheEntries_eq]
      exact List.mem_append.mpr (Or.inr h1)
    · intro ent h1
      rw [fetchEmotes_eq net ids now ttl s h] at h1
      simp only at h1
      rw [loadCacheEntries_eq] at h1
      rcases List.mem_append.mp h1 with h2 | h2
      · rw [List.mem_reverse, List.mem_map] at h2
        obtain ⟨e, he, hee⟩ := h2
        refine Or.inr ⟨e, ?_, ?_⟩
        · rw [fetchEmotes_eq net ids now ttl s h]
          exact he
        · rw [← hee]
      · exact Or.inl h2
    · intro t v hnorm hk0 hget
      apply findEmote_hit_of_cacheGet _ t ttl k v hnorm hk0
      rw [hcge t]
      exact hget
    · intro t hnorm hk0 hget
      apply findEmote_none_of_miss _ t ttl k hnorm hk0
      · rw [hcge t]
        exact hget
      · exact hk
    · intro ent h1
      unfold refreshEmotes at h1 ⊢
      rw [fetchEmotes_eq net ids now ttl _ h] at h1 ⊢
      simp only at h1
      rw [loadCacheEntries_eq] at h1
      simp only [List.append_nil] at h1
      rw [List.mem_reverse, List.mem_map] at h1
      obtain ⟨e, he, hee⟩ := h1
      exact ⟨e, he, by rw [← hee]⟩

/-- Stale emote behind the pre-existing cache entry of the C10 witness. -/
def emoteGhost : Emote :=
  { id := "g1", name := "Ghost", owner := "Desconhecido", visibility := none, mime := none,
    tags := [], animated := false }

/-- State before the C10 witness load: one cache entry under key ghost that
expires at instant 100. -/
def stateOldGhost : RegistryState :=
  { allEmotes := [], emoteCache := [{ key := "ghost", value := emoteGhost, expiresAt := 100 }] }

/-- Witness for C10: after a load that brings only the emote Wit, the
pre-existing ghost entry is still returned by find at instant 50 and is gone
at instant 200 (past its expiry). -/
theorem claim10_witness :
    (findEmote 50 3600 (fetchEmotes netWit ["setA"] 0 3600 stateOldGhost).2 "ghost").1 =
      some emoteGhost ∧
    (findEmote 200 3600 (fetchEmotes netWit ["setA"] 0 3600 stateOldGhost).2 "ghost").1 =
      none :=
  ⟨(claim10_load_keeps_foreign_cache_entries netWit ["setA"] 0 3600 stateOldGhost "ghost"
      (by decide)).2.2.2.1 50 emoteGhost (by decide) (by decide) (by decide),
   (claim10_load_keeps_foreign_cache_entries netWit ["setA"] 0 3600 stateOldGhost "ghost"
      (by decide)).2.2.2.2.1 200 (by decide) (by decide) (by decide)⟩
